/-
  Verification of the speglar-gba simulation core against its specification.

  The Rust sources embedded here: src/map.rs, src/map/tiles.rs,
  src/map/generation.rs, src/rng.rs, src/bullet.rs, src/player.rs,
  src/main.rs.  The repository's utils.rs (fixed-point scalar `N`,
  `Vector2`/`AlignedVector`, hitboxes, `split_mut_at`) is not part of the
  provided sources; those pieces are modelled from the specification and
  are marked as such in their doc comments.

  Machine integers are modelled as Nat with explicit reductions mod 2^64
  (the PRNG state) or as Int (the fixed-point scalar); fallible code
  (const-eval panics, `unwrap`) returns Option.
-/
import Mathlib

set_option maxRecDepth 10000

/-! ## Fixed-point scalar and vectors

Modelled from the spec: utils.rs is missing.  `FixedScalar (N)`: "signed
fixed-point number with a fixed fractional-bit width (reference uses a
binary-fraction layout where bit position b below the integer boundary
represents 1/2^b of one pixel)".  We fix the fractional width at 8 bits
(`MAX_FRAC_PORTION` is then 255), so a scalar is an `Int` counting units
of 1/256 of a pixel.  Rust `i32` division truncates toward zero. -/

/-- Truncating (toward-zero) division, the Rust `i32` semantics.
Modelled from the spec: utils.rs / the fixed-point scalar is missing. -/
def fxdiv (a : Int) (b : Nat) : Int :=
  if 0 ≤ a then ((a.toNat / b : Nat) : Int) else -(((-a).toNat / b : Nat) : Int)

/-- One whole pixel in fixed-point units (2^8 fractional bits). -/
def fxOne : Int := 256

/-- Modelled from the spec: `MAX_FRAC_PORTION` of utils.rs, the largest
pure-fraction bit pattern: 2^8 - 1. -/
def maxFracPortion : Int := 255

/-- Modelled from the spec: `n_from_bit(b)` of utils.rs.  Per the comments
in bullet.rs, bit 5 is 1/32 of a pixel and bit 6 is 1/64, so
`n_from_bit b = 2^(8-b)` units. -/
def nFromBit (b : Nat) : Int := (2 ^ (8 - b) : Nat)

/-- Modelled from the spec: `n_from_parts(int, frac)` of utils.rs: an
integer pixel part plus a raw fractional-unit part. -/
def nFromParts (intPart : Int) (fracPart : Int) : Int := intPart * fxOne + fracPart

/-- A 2-D fixed-point vector (`VectType` = `Vector2D<N>`).
Modelled from the spec: utils.rs is missing. -/
structure Vec2 where
  x : Int
  y : Int
deriving DecidableEq, Repr

def Vec2.add (a b : Vec2) : Vec2 := ⟨a.x + b.x, a.y + b.y⟩

instance : Add Vec2 := ⟨Vec2.add⟩

/-! ## Direction (utils.rs, modelled from the spec)

Spec: "Direction: one of {Up, Down, Left, Right}.  Derived predicates:
is_horizontal, is_vertical, flipped (Up↔Down, Left↔Right),
scaled_vec(speed) → unit vector in that direction times speed."
Screen coordinates grow rightward and downward (GBA convention). -/

inductive Direction where
  | Up
  | Down
  | Left
  | Right
deriving DecidableEq, Repr

def Direction.is_horizontal : Direction → Bool
  | .Left => true
  | .Right => true
  | _ => false

def Direction.is_vertical : Direction → Bool
  | .Up => true
  | .Down => true
  | _ => false

def Direction.flipped : Direction → Direction
  | .Up => .Down
  | .Down => .Up
  | .Left => .Right
  | .Right => .Left

/-- Modelled from the spec: "unit vector in that direction times speed". -/
def Direction.scaled_vec (d : Direction) (speed : Int) : Vec2 :=
  match d with
  | .Up => ⟨0, -speed⟩
  | .Down => ⟨0, speed⟩
  | .Left => ⟨-speed, 0⟩
  | .Right => ⟨speed, 0⟩

/-! ## MapTile (src/map/tiles.rs) -/

inductive MapTile where
  | Empty
  | Block
  | UpMirror
  | DownMirror
  | HorizMirror
  | VertMirror
  | HorizPipe
  | VertPipe
deriving DecidableEq, Repr

/-- tiles.rs `MapTile::to_u8`: the discriminants 0..7 in declaration order. -/
def MapTile.to_u8 : MapTile → Nat
  | .Empty => 0
  | .Block => 1
  | .UpMirror => 2
  | .DownMirror => 3
  | .HorizMirror => 4
  | .VertMirror => 5
  | .HorizPipe => 6
  | .VertPipe => 7

/-- tiles.rs `MapTile::from_u8`: `raw & 0x07` transmuted back to the enum. -/
def MapTile.from_u8 (raw : Nat) : MapTile :=
  match raw &&& 0x07 with
  | 0 => .Empty
  | 1 => .Block
  | 2 => .UpMirror
  | 3 => .DownMirror
  | 4 => .HorizMirror
  | 5 => .VertMirror
  | 6 => .HorizPipe
  | _ => .VertPipe

/-- tiles.rs `MapTile::flipped`. -/
def MapTile.flippedTile : MapTile → MapTile
  | .DownMirror => .UpMirror
  | .UpMirror => .DownMirror
  | other => other

/-- tiles.rs `MapTile::allows_player`. -/
def MapTile.allows_player : MapTile → Bool
  | .Empty => true
  | .UpMirror => true
  | .DownMirror => true
  | .HorizMirror => true
  | .VertMirror => true
  | _ => false

/-! ## PRNG (src/rng.rs)

The 64-bit state is a `Nat` kept below 2^64 by explicit `% 2^64`. -/

def U64MOD : Nat := 2 ^ 64

/-- rng.rs `step`: the xorshift `x ^= x<<13; x ^= x>>7; x ^= x<<17` on u64. -/
def rngStepFn (cur : Nat) : Nat :=
  let a := (cur ^^^ (cur <<< 13)) % U64MOD
  let b := a ^^^ (a >>> 7)
  (b ^^^ (b <<< 17)) % U64MOD

structure Rng where
  cur_state : Nat
deriving DecidableEq, Repr

def Rng.with_seed (seed : Nat) : Rng := ⟨seed % U64MOD⟩

/-- rng.rs `bool_const`: LSB parity of the advanced state. -/
def Rng.bool_const (r : Rng) : Rng × Bool :=
  let next_state := rngStepFn r.cur_state
  (⟨next_state⟩, next_state % 2 == 1)

/-- rng.rs `u64_const`.  `max - min + 1` is checked u64 arithmetic: it
panics (None) when `min > max` (the subtraction underflows) and when
`max - min = 2^64 - 1` (the increment overflows); otherwise the draw is
`min + next_state % range` with the advanced generator. -/
def Rng.u64_const (r : Rng) (min max : Nat) : Option (Rng × Nat) :=
  let next_state := rngStepFn r.cur_state
  if max < min then none
  else if U64MOD ≤ max - min + 1 then none
  else some (⟨next_state⟩, min + next_state % (max - min + 1))

/-- rng.rs `u8_const`: delegates to `u64_const`, truncating the draw to u8. -/
def Rng.u8_const (r : Rng) (min max : Nat) : Option (Rng × Nat) :=
  (r.u64_const min max).map (fun p => (p.1, p.2 % 256))

/-- rng.rs `usize_const`: delegates to `u64_const` (usize = u64 here). -/
def Rng.usize_const (r : Rng) (min max : Nat) : Option (Rng × Nat) :=
  r.u64_const min max

/-! ## BaseMap (src/map.rs)

Constants: GBA screen is 240×160 pixels, `TILE_SIZE = 8`,
`BUFFER_TILES = 1`, hence `MAP_BYTE_WIDTH = 14`, `MAP_WIDTH = 28`,
`MAP_HEIGHT = 18`.  The grid packs two 3-bit tiles per byte: high nibble
= even x index, low nibble = odd x index. -/

def TILE_SIZE : Nat := 8
def BUFFER_TILES : Nat := 1
def MAP_BYTE_WIDTH : Nat := 14
def MAP_WIDTH : Nat := 28
def MAP_HEIGHT : Nat := 18

structure BaseMap where
  data : List (List Nat)
  spawns : List (Nat × Nat)
deriving DecidableEq, Repr

/-- map.rs `BaseMap::get`: extract the nibble of `(x, y)` (high nibble for
even x, low nibble for odd x) and decode it. -/
def BaseMap.get (m : BaseMap) (x y : Nat) : MapTile :=
  if x % 2 == 0 then MapTile.from_u8 (((m.data.getD y []).getD (x / 2) 0) >>> 4)
  else MapTile.from_u8 ((m.data.getD y []).getD (x / 2) 0)

/-- map.rs `BaseMap::set` (and the `const` twin `with`): overwrite the
nibble of `(x, y)` with the tile's discriminant, leaving the other nibble
of the byte alone. -/
def BaseMap.set (m : BaseMap) (x y : Nat) (tile : MapTile) : BaseMap :=
  { m with data := m.data.set y ((m.data.getD y []).set (x / 2)
      (if x % 2 == 0 then (tile.to_u8 <<< 4) ||| (((m.data.getD y []).getD (x / 2) 0) &&& 0x0F)
       else (((m.data.getD y []).getD (x / 2) 0) &&& 0xF0) ||| tile.to_u8)) }

/-- map.rs `BaseMap::with` is the same computation as `set`, returning the
updated map by value. -/
def BaseMap.with_ (m : BaseMap) (x y : Nat) (tile : MapTile) : BaseMap :=
  m.set x y tile

/-- Pack one row of tiles two to a byte: high nibble = even index, low
nibble = odd index, as the from_raw loop builds it. -/
def packRow : List MapTile → List Nat
  | a :: b :: rest => ((a.to_u8 <<< 4) ||| b.to_u8) :: packRow rest
  | _ => []

/-- map.rs `BaseMap::from_raw`: pack a tile matrix into bytes. -/
def BaseMap.from_raw (dataRows : List (List MapTile)) (spawns : List (Nat × Nat)) : BaseMap :=
  ⟨dataRows.map packRow, spawns⟩

/-- Well-formedness carried by the Rust types: 18 rows of 14 bytes, each
byte a u8. -/
def BaseMap.WF (m : BaseMap) : Prop :=
  m.data.length = MAP_HEIGHT ∧
  (∀ row ∈ m.data, row.length = MAP_BYTE_WIDTH ∧ ∀ b ∈ row, b < 256)

instance (m : BaseMap) : Decidable m.WF := by
  unfold BaseMap.WF
  infer_instance

/-- map.rs `pixel_to_index`: divide by the tile size, shift by the buffer
ring, fail (None) on either side of the valid index window. -/
def BaseMap.pixel_to_index (pos : Vec2) : Option (Nat × Nat) :=
  let x_raw := fxdiv pos.x TILE_SIZE - (BUFFER_TILES : Int) * fxOne
  let y_raw := fxdiv pos.y TILE_SIZE - (BUFFER_TILES : Int) * fxOne
  if x_raw < 0 ∨ y_raw < 0 then none
  else
    let x := (fxdiv x_raw 256).toNat
    let y := (fxdiv y_raw 256).toNat
    if MAP_WIDTH ≤ x ∨ MAP_HEIGHT ≤ y then none
    else some (x, y)

/-- map.rs `tile_at_pixel`: out-of-map positions read as `Empty`. -/
def BaseMap.tile_at_pixel (m : BaseMap) (pos : Vec2) : MapTile :=
  match BaseMap.pixel_to_index pos with
  | none => MapTile.Empty
  | some (x, y) => m.get x y

/-- map.rs `index_to_pixel`: the fixed-point pixel position of a tile
index, shifted past the buffer ring. -/
def BaseMap.index_to_pixel (idx : Nat × Nat) : Vec2 :=
  ⟨((idx.1 + BUFFER_TILES) * TILE_SIZE : Nat) * fxOne, ((idx.2 + BUFFER_TILES) * TILE_SIZE : Nat) * fxOne⟩

/-! ## The honeycomb base layout (src/map/generation.rs)

`EMPTY_ROW` walls the two ends of a row; `BLOCK_ROW` is solid.  The
obstacle pattern punches blocks at every other column and row, with one
single-step offset at the middle of each axis (the two inner while
loops). -/

def EMPTY_ROW : List MapTile :=
  ((List.replicate MAP_WIDTH MapTile.Empty).set 0 MapTile.Block).set (MAP_WIDTH - 1) MapTile.Block

def BLOCK_ROW : List MapTile := List.replicate MAP_WIDTH MapTile.Block

/-- The inner `while yidx < MAP_HEIGHT` loop of the honeycomb builder:
block the cell, then advance by 2 (by 3 once, at `MAP_HEIGHT/2 - 1`).
Fuel-bounded; the call supplies `MAP_HEIGHT` which exceeds the ≤ 10
iterations. -/
def hcYLoop (x : Nat) : Nat → Nat → List (List MapTile) → List (List MapTile)
  | 0, _, g => g
  | fuel + 1, y, g =>
    if y < MAP_HEIGHT then
      let g2 := g.set y ((g.getD y []).set x MapTile.Block)
      let y2 := if y == MAP_HEIGHT / 2 - 1 then y + 3 else y + 2
      hcYLoop x fuel y2 g2
    else g

/-- The outer `while xidx < MAP_WIDTH` loop of the honeycomb builder:
advance by 2 (by 3 once, at `MAP_WIDTH/2 - 2`). -/
def hcXLoop : Nat → Nat → List (List MapTile) → List (List MapTile)
  | 0, _, g => g
  | fuel + 1, x, g =>
    if x < MAP_WIDTH then
      let g2 := hcYLoop x MAP_HEIGHT 0 g
      let x2 := if x == MAP_WIDTH / 2 - 2 then x + 3 else x + 2
      hcXLoop fuel x2 g2
    else g

def HONEYCOMB_SPAWNS : List (Nat × Nat) :=
  [(1, 1), (1, MAP_HEIGHT - 2), (MAP_WIDTH - 2, 1), (MAP_WIDTH - 2, MAP_HEIGHT - 2)]

def HONEYCOMB_BASE : BaseMap :=
  let g0 := ((List.replicate MAP_HEIGHT EMPTY_ROW).set 0 BLOCK_ROW).set (MAP_HEIGHT - 1) BLOCK_ROW
  BaseMap.from_raw (hcXLoop MAP_WIDTH 0 g0) HONEYCOMB_SPAWNS

/-- generation.rs `verify_spawns`: every spawn coordinate must hold an
`Empty` tile (a build-time assertion). -/
def verify_spawns (m : BaseMap) : Bool :=
  m.spawns.all (fun s => m.get s.1 s.2 == MapTile.Empty)

/-! ## Map generation (src/map/generation.rs) -/

/-- generation.rs `bullet_is_passable`: the static passability rule. -/
def bullet_is_passable (tile : MapTile) (dir : Direction) : Bool :=
  match tile with
  | .Empty => true
  | .Block => false
  | .UpMirror => true
  | .DownMirror => true
  | .HorizMirror => dir.is_vertical
  | .VertMirror => dir.is_horizontal
  | .HorizPipe => dir.is_horizontal
  | .VertPipe => dir.is_vertical

/-- The four passability flags `(u, d, l, r)` computed by `generate` for a
candidate cell (generation.rs lines 70–73).  As in the source, the
right flag inspects the tile at `(x-1, y)` — the same cell as the left
flag — not `(x+1, y)`.  The candidate always has `x ≥ 1`, `y ≥ 1`. -/
def genFlags (m : BaseMap) (x y : Nat) : Bool × Bool × Bool × Bool :=
  (bullet_is_passable (m.get x (y - 1)) .Up,
   bullet_is_passable (m.get x (y + 1)) .Down,
   bullet_is_passable (m.get (x - 1) y) .Left,
   bullet_is_passable (m.get (x - 1) y) .Right)

/-- Modelled from the spec: the flag computation as §4.3 words it, "each
answering: can a bullet travelling in that direction pass through the
adjacent cell on that side", so the right flag inspects `(x+1, y)`. -/
def genFlagsSpec (m : BaseMap) (x y : Nat) : Bool × Bool × Bool × Bool :=
  (bullet_is_passable (m.get x (y - 1)) .Up,
   bullet_is_passable (m.get x (y + 1)) .Down,
   bullet_is_passable (m.get (x - 1) y) .Left,
   bullet_is_passable (m.get (x + 1) y) .Right)

/-- The `match (u, d, l, r)` classification inside `generate`
(generation.rs lines 74–123), with the arms in source order: `None`
means the candidate is discarded (`continue`). -/
def classify (u d l r : Bool) (rng : Rng) : Option (MapTile × Rng) :=
  match u, d, l, r with
  | true, false, true, false | false, true, false, true => some (.UpMirror, rng)
  | true, false, false, true | false, true, true, false => some (.DownMirror, rng)
  | true, true, true, true =>
    let res := rng.bool_const
    some (if res.2 then .UpMirror else .DownMirror, res.1)
  | true, true, true, _ | true, true, _, true | true, _, true, true | _, true, true, true =>
    let res := rng.bool_const
    some (if res.2 then .UpMirror else .DownMirror, res.1)
  | false, false, false, false => none
  | false, false, false, true | false, false, true, false
  | false, true, false, false | true, false, false, false => none
  | true, true, false, false | false, false, true, true => none

/-- Result of running the generator for a bounded number of loop
iterations: `ok` when the count reached zero, `panic` when a PRNG range
computation overflowed, `fuelOut` when the `while num_mirrors > 0` loop
is still running after the given iteration budget (the source imposes no
bound of its own). -/
inductive GenRes where
  | ok (m : BaseMap)
  | panic
  | fuelOut
deriving DecidableEq, Repr

/-- The `while num_mirrors > 0` loop of generation.rs `generate`, with an
explicit iteration budget. -/
def genLoop : Nat → BaseMap → Rng → Nat → GenRes
  | 0, m, _, k => if k == 0 then .ok m else .fuelOut
  | fuel + 1, m, rng, k =>
    if k == 0 then .ok m
    else
      match rng.usize_const 1 (MAP_WIDTH - 2) with
      | none => .panic
      | some (r1, next_x) =>
        match r1.usize_const 1 (MAP_HEIGHT - 2) with
        | none => .panic
        | some (r2, next_y) =>
          if !(m.get next_x next_y == MapTile.Empty) then genLoop fuel m r2 k
          else
            let flags := genFlags m next_x next_y
            match classify flags.1 flags.2.1 flags.2.2.1 flags.2.2.2 r2 with
            | none => genLoop fuel m r2 k
            | some (tile, r3) => genLoop fuel (m.with_ next_x next_y tile) r3 (k - 1)

/-- generation.rs `generate`: draw the mirror count, then run the
placement loop. -/
def generate (seed : Nat) (base : BaseMap) (min_mirrors max_mirrors : Nat) (fuel : Nat) : GenRes :=
  match (Rng.with_seed seed).u8_const min_mirrors max_mirrors with
  | none => .panic
  | some (rng, num_mirrors) => genLoop fuel base rng num_mirrors

/-- Read a tile out of a successful generation result. -/
def GenRes.tileAt (g : GenRes) (x y : Nat) : Option MapTile :=
  match g with
  | .ok m => some (m.get x y)
  | _ => none

/-! ## Hitboxes (utils.rs, modelled from the spec)

Spec: a hitbox is "the axis-aligned square used for all collision tests",
"centered on position" (player: side 7.5 px; bullet: 4×4 px), and bullet
collision tests are "axis-aligned box overlap".  Two centered boxes
overlap iff the center distance is below the mean of the sizes on both
axes. -/

def boxCollides (c1 s1 c2 s2 : Vec2) : Bool :=
  decide (2 * ((c1.x - c2.x).natAbs : Int) < s1.x + s2.x) &&
  decide (2 * ((c1.y - c2.y).natAbs : Int) < s1.y + s2.y)

/-! ## Player (src/player.rs) -/

inductive PlayerTag where
  | P1
  | P2
  | P3
  | P4
deriving DecidableEq, Repr

/-- utils.rs `AlignedVector`, modelled from the spec: "a vector guaranteed
to be axis-aligned with an associated Direction and non-negative
magnitude; used for velocity so that zero velocity still remembers a
facing direction". -/
structure AlignedVec where
  magnitude : Int
  dir : Direction
deriving DecidableEq, Repr

def AlignedVec.zero (d : Direction) : AlignedVec := ⟨0, d⟩

def AlignedVec.toVec (v : AlignedVec) : Vec2 := v.dir.scaled_vec v.magnitude

/-- Move `cur` linearly toward `target` by at most `step`, clamped at the
target (spec §4.1: "magnitude never overshoots the target in one step by
more than the step size, and never goes negative"). -/
def stepToward (cur step target : Int) : Int :=
  if target < cur then max (cur - step) target else min (cur + step) target

/-- Modelled from the spec: `AlignedVector::step_to(decel, target)` "moves
the vector's magnitude linearly toward target_magnitude by decel per
call, floor-clamped at target_magnitude". -/
def AlignedVec.step_to (v : AlignedVec) (decel : Int) (target : Int) : AlignedVec :=
  ⟨stepToward v.magnitude decel target, v.dir⟩

/-- Modelled from the spec: `AlignedVector::step_to_dir(accel, target)`
"moves magnitude toward target's magnitude while re-aligning direction to
target's direction". -/
def AlignedVec.step_to_dir (v : AlignedVec) (accel : Int) (target : AlignedVec) : AlignedVec :=
  ⟨stepToward v.magnitude accel target.magnitude, target.dir⟩

structure Player where
  pos : Vec2
  dir : Direction
  vel : AlignedVec
  charge : Nat
  tag : PlayerTag
deriving DecidableEq, Repr

/-- player.rs `Player::SPEED = n_from_parts(1, 0)`. -/
def PLAYER_SPEED : Int := nFromParts 1 0

/-- player.rs `Player::FRICTION = n_from_parts(0, MAX_FRAC_PORTION / 3)`. -/
def PLAYER_FRICTION : Int := nFromParts 0 (fxdiv maxFracPortion 3)

/-- player.rs `Player::OVERBOOST_FRICTION = n_from_parts(0, MAX_FRAC_PORTION / 2)`. -/
def PLAYER_OVERBOOST_FRICTION : Int := nFromParts 0 (fxdiv maxFracPortion 2)

/-- player.rs `Player::ACCEL = n_from_parts(0, MAX_FRAC_PORTION / 2)`. -/
def PLAYER_ACCEL : Int := nFromParts 0 (fxdiv maxFracPortion 2)

/-- player.rs `speed_for`: the base speed in the given direction. -/
def speed_for (dir : Direction) : AlignedVec := ⟨PLAYER_SPEED, dir⟩

/-- player.rs hitbox size `(7.5, 7.5)` pixels. -/
def PLAYER_SIZE : Vec2 := ⟨nFromParts 7 128, nFromParts 7 128⟩

structure ControlsRepr where
  dir : Option Direction
  fired_bullet : Bool
  fired_shield : Bool
deriving DecidableEq, Repr

/-- `ControlsRepr::default()`: no direction, nothing fired. -/
def ControlsRepr.mk_default : ControlsRepr := ⟨none, false, false⟩

/-- player.rs `step_vel`: overboost (velocity above the base speed) decays
under the stronger friction and input only redirects facing; otherwise no
input decays under normal friction and directional input accelerates
toward the base speed in that direction. -/
def Player.step_vel (p : Player) (controls : ControlsRepr) : Player :=
  let is_overboost := PLAYER_SPEED < p.vel.magnitude
  if is_overboost then
    { p with vel := p.vel.step_to PLAYER_OVERBOOST_FRICTION 0, dir := controls.dir.getD p.dir }
  else
    match controls.dir with
    | none => { p with vel := p.vel.step_to PLAYER_FRICTION 0 }
    | some ndir => { p with dir := ndir, vel := p.vel.step_to_dir PLAYER_ACCEL (speed_for ndir) }

/-- The four corners of a centered box (RectExt `tl/tr/bl/br`, modelled
from the spec's centered-hitbox description). -/
def rectCorners (center size : Vec2) : List Vec2 :=
  let hx := fxdiv size.x 2
  let hy := fxdiv size.y 2
  [⟨center.x - hx, center.y - hy⟩, ⟨center.x + hx, center.y - hy⟩,
   ⟨center.x - hx, center.y + hy⟩, ⟨center.x + hx, center.y + hy⟩]

/-- map.rs `tiles_intersecting`: the deduplicated tile indices under the
four hitbox corners (out-of-map corners read as no index). -/
def dedupIdx : List (Option (Nat × Nat)) → List Vec2 → List (Option (Nat × Nat))
  | acc, [] => acc
  | acc, c :: rest =>
    let mc := BaseMap.pixel_to_index c
    if acc.contains mc then dedupIdx acc rest else dedupIdx (acc ++ [mc]) rest

def BaseMap.tiles_intersecting (m : BaseMap) (center size : Vec2) : List MapTile :=
  (dedupIdx [] (rectCorners center size)).map fun opt =>
    match opt with
    | none => MapTile.Empty
    | some (x, y) => m.get x y

/-! ## Bullet (src/bullet.rs) -/

inductive BulletTag where
  | NoPlayer
  | Player1
  | Player2
  | Player3
  | Player4
deriving DecidableEq, Repr

/-- bullet.rs `BulletTag::matches_player`. -/
def BulletTag.matches_player : BulletTag → PlayerTag → Bool
  | .Player1, .P1 => true
  | .Player2, .P2 => true
  | .Player3, .P3 => true
  | .Player4, .P4 => true
  | _, _ => false

inductive BulletType where
  | Bullet
  | Reflector
deriving DecidableEq, Repr

structure Bullet where
  pos : Vec2
  dir : Direction
  tag : BulletTag
  kind : BulletType
  should_die : Bool
deriving DecidableEq, Repr

/-- bullet.rs hitbox size `(4, 4)` pixels. -/
def BULLET_SIZE : Vec2 := ⟨4 * fxOne, 4 * fxOne⟩

/-- bullet.rs `BULLET_SPEED = n_from_bit(5)` (1/32 px per frame). -/
def BULLET_SPEED : Int := nFromBit 5

/-- bullet.rs `SHIELD_SPEED = n_from_bit(6)` (1/64 px per frame). -/
def SHIELD_SPEED : Int := nFromBit 6

def Bullet.speed (b : Bullet) : Int :=
  match b.kind with
  | .Bullet => BULLET_SPEED
  | .Reflector => SHIELD_SPEED

/-- Bullet-vs-player hitbox overlap (`self.collides(player)`). -/
def bpCollides (b : Bullet) (p : Player) : Bool :=
  boxCollides b.pos BULLET_SIZE p.pos PLAYER_SIZE

/-- Bullet-vs-bullet hitbox overlap (`self.collides(other)`). -/
def bbCollides (a b : Bullet) : Bool :=
  boxCollides a.pos BULLET_SIZE b.pos BULLET_SIZE

inductive BulletEvent where
  | KillPlayer (tag : PlayerTag)
  | PushChargePlayer (tag : PlayerTag) (dir : Direction)
deriving DecidableEq, Repr

/-- The `for player in players` loop of `Bullet::update`: the first
player the moved bullet overlaps, if any. -/
def firstHit (b : Bullet) : List Player → Option Player
  | [] => none
  | p :: rest => if bpCollides b p then some p else firstHit b rest

/-- The `for other in other_bullets_1.chain(other_bullets_2)` loop of
`Bullet::update`.  A same-kind collision marks `should_die` and returns
early (the Bool); an opposing `Reflector` flips the travel direction and
the loop continues. -/
def bulletBulletLoop (b : Bullet) : List Bullet → Bullet × Bool
  | [] => (b, false)
  | o :: rest =>
    if !bbCollides b o then bulletBulletLoop b rest
    else if b.kind == o.kind then ({ b with should_die := true }, true)
    else if o.kind == BulletType.Reflector then bulletBulletLoop { b with dir := b.dir.flipped } rest
    else bulletBulletLoop b rest

/-- The tile interaction of `Bullet::update` (the `match tile`), evaluated
at the bullet hitbox's center (= its position in the centered model). -/
def bulletTilePhase (map : BaseMap) (b : Bullet) : Bullet :=
  match map.tile_at_pixel b.pos with
  | .Block => { b with should_die := true }
  | .UpMirror =>
    { b with dir := match b.dir with | .Right => .Up | .Up => .Right | .Down => .Left | .Left => .Down }
  | .DownMirror =>
    { b with dir := match b.dir with | .Right => .Down | .Down => .Right | .Up => .Left | .Left => .Up }
  | .HorizMirror => if b.dir.is_vertical then { b with dir := b.dir.flipped } else { b with should_die := true }
  | .VertMirror => if b.dir.is_horizontal then { b with dir := b.dir.flipped } else { b with should_die := true }
  | .VertPipe => if b.dir.is_horizontal then { b with should_die := true } else b
  | .HorizPipe => if b.dir.is_vertical then { b with should_die := true } else b
  | .Empty => b

/-- The movement step of `Bullet::update`:
`self.pos += self.dir.scaled_vec(self.speed())`. -/
def Bullet.moved (b : Bullet) : Bullet :=
  { b with pos := b.pos + b.dir.scaled_vec b.speed }

/-- bullet.rs `Bullet::update`: advance, test players (first hit decides
death and the emitted event), then other bullets, then the tile under the
hitbox center. -/
def Bullet.update (map : BaseMap) (players : List Player) (ob1 ob2 : List Bullet) (b : Bullet) :
    Bullet × Option BulletEvent :=
  let bm := b.moved
  match firstHit bm players with
  | some p =>
    let bd := { bm with should_die := true }
    if bd.kind != BulletType.Bullet then (bd, none)
    else if bd.tag.matches_player p.tag then (bd, some (.PushChargePlayer p.tag bd.dir))
    else (bd, some (.KillPlayer p.tag))
  | none =>
    let res := bulletBulletLoop bm (ob1 ++ ob2)
    if res.2 then (res.1, none)
    else (bulletTilePhase map res.1, none)

/-! ## Player update (src/player.rs `Player::update`) -/

/-- The candidate raw next position of `Player::update`: velocity applied
after `step_vel`. -/
def Player.candidateRaw (p : Player) (controls : ControlsRepr) : Vec2 :=
  let p1 := p.step_vel controls
  p1.pos + p1.vel.toVec

/-- player.rs `Player::update`.  `None` models the panic of
`map.pixel_to_index(next_pos_raw).unwrap()` when the candidate position
lies outside the map extents.  The axis perpendicular to the facing
direction snaps to the tile-lane center; the move is rejected (velocity
zeroed, position kept) if any overlapped tile disallows players or the
candidate hitbox overlaps another player. -/
def Player.update (map : BaseMap) (players_1 players_2 : List Player) (_bullets : List Bullet)
    (controls : ControlsRepr) (p : Player) : Option Player :=
  let p1 := p.step_vel controls
  let next_pos_raw := p1.pos + p1.vel.toVec
  match BaseMap.pixel_to_index next_pos_raw with
  | none => none
  | some idx =>
    let remapped := BaseMap.index_to_pixel idx
    let next_pos : Vec2 :=
      if p1.dir.is_horizontal then ⟨next_pos_raw.x, remapped.y⟩ else ⟨remapped.x, next_pos_raw.y⟩
    let tileBlocked := (map.tiles_intersecting next_pos PLAYER_SIZE).any fun t => !t.allows_player
    let playerBlocked := (players_1 ++ players_2).any fun o =>
      boxCollides next_pos PLAYER_SIZE o.pos PLAYER_SIZE
    if tileBlocked || playerBlocked then some { p1 with vel := AlignedVec.zero p1.dir }
    else some { p1 with pos := next_pos }

/-! ## Tick orchestrator (src/main.rs `GameState::update_logic`) -/

/-- utils.rs `split_mut_at`, modelled from its call sites: the elements
before index `i`, the element at `i`, and the elements after it. -/
def splitMutAt {α : Type} (l : List α) (i : Nat) : Option (List α × α × List α) :=
  if h : i < l.length then some (l.take i, l.get ⟨i, h⟩, l.drop (i + 1)) else none

/-- main.rs: the local player reads the button controller; every other
player gets `ControlsRepr::default()`. -/
def ctrlFor (localPlayer : PlayerTag) (realCtrl : ControlsRepr) (p : Player) : ControlsRepr :=
  if p.tag == localPlayer then realCtrl else ControlsRepr.mk_default

/-- The index sequence `start, start+1, ...` of length `n` (the
`for idx in 0..len` ranges of `update_logic`). -/
def idxs (start : Nat) : Nat → List Nat
  | 0 => []
  | n + 1 => start :: idxs (start + 1) n

/-- The player half of `update_logic`: players update in index order, in
place — each sees the already-updated prefix and the not-yet-updated
suffix of the collection. -/
def playersPhaseGo (map : BaseMap) (bullets : List Bullet) (localPlayer : PlayerTag)
    (ctrl : ControlsRepr) : List Nat → List Player → Option (List Player)
  | [], ps => some ps
  | i :: rest, ps =>
    match splitMutAt ps i with
    | none => playersPhaseGo map bullets localPlayer ctrl rest ps
    | some (pa, cur, pb) =>
      match Player.update map pa pb bullets (ctrlFor localPlayer ctrl cur) cur with
      | none => none
      | some p2 => playersPhaseGo map bullets localPlayer ctrl rest (ps.set i p2)

def playersPhase (map : BaseMap) (bullets : List Bullet) (localPlayer : PlayerTag)
    (ctrl : ControlsRepr) (ps : List Player) : Option (List Player) :=
  playersPhaseGo map bullets localPlayer ctrl (idxs 0 ps.length) ps

/-- Modelled from the spec: the tick as §4.6/§5 describe it — every
player's update reads only the previous tick's snapshot of the other
players ("all reads are against the previous tick's snapshot"). -/
def playersPhaseSnapshotGo (map : BaseMap) (bullets : List Bullet) (localPlayer : PlayerTag)
    (ctrl : ControlsRepr) (ps : List Player) : List Nat → Option (List Player)
  | [] => some []
  | i :: rest =>
    match splitMutAt ps i with
    | none => none
    | some (pa, cur, pb) =>
      match Player.update map pa pb bullets (ctrlFor localPlayer ctrl cur) cur with
      | none => none
      | some p2 => (playersPhaseSnapshotGo map bullets localPlayer ctrl ps rest).map (p2 :: ·)

def playersPhaseSnapshot (map : BaseMap) (bullets : List Bullet) (localPlayer : PlayerTag)
    (ctrl : ControlsRepr) (ps : List Player) : Option (List Player) :=
  playersPhaseSnapshotGo map bullets localPlayer ctrl ps (idxs 0 ps.length)

/-- main.rs `binary_search_by_key(&tag, |p| p.tag)` over the player
collection, which is constructed sorted by tag: the index holding the
tag, if any. -/
def binarySearchByTag (players : List Player) (tag : PlayerTag) : Option Nat :=
  players.findIdx? fun p => p.tag == tag

/-- The bullet half of `update_logic`: bullets update in index order, in
place, against the already-updated players; `KillPlayer` events queue the
victim's index and dead bullets queue their own index — the removal lists
are computed but never applied. -/
def bulletsPhaseGo (map : BaseMap) (players : List Player) :
    List Nat → List Bullet → List Nat → List Nat → List Bullet × List Nat × List Nat
  | [], bs, prm, brm => (bs, prm, brm)
  | i :: rest, bs, prm, brm =>
    match splitMutAt bs i with
    | none => bulletsPhaseGo map players rest bs prm brm
    | some (ba, cur, bb) =>
      let upd := Bullet.update map players ba bb cur
      let prm2 :=
        match upd.2 with
        | some (BulletEvent.KillPlayer tag) =>
          match binarySearchByTag players tag with
          | some pidx => prm ++ [pidx]
          | none => prm
        | _ => prm
      let brm2 := if upd.1.should_die then brm ++ [i] else brm
      bulletsPhaseGo map players rest (bs.set i upd.1) prm2 brm2

structure TickOut where
  players : List Player
  bullets : List Bullet
  players_to_remove : List Nat
  bullets_to_remove : List Nat
deriving DecidableEq, Repr

/-- main.rs `GameState::update_logic` for one tick: the player phase then
the bullet phase.  `None` models a panic inside a player update. -/
def update_logic (map : BaseMap) (localPlayer : PlayerTag) (ctrl : ControlsRepr)
    (players : List Player) (bullets : List Bullet) : Option TickOut :=
  match playersPhase map bullets localPlayer ctrl players with
  | none => none
  | some ps2 =>
    let res := bulletsPhaseGo map ps2 (idxs 0 bullets.length) bullets [] []
    some ⟨ps2, res.1, res.2.1, res.2.2⟩

/-! ## Concrete fixtures used by the counterexamples and witnesses -/

/-- A base map whose every tile is `Empty` (borders included): positions
well inside it see only permissive terrain. -/
def EMPTY_MAP : BaseMap :=
  BaseMap.from_raw (List.replicate MAP_HEIGHT (List.replicate MAP_WIDTH MapTile.Empty))
    [(1, 1), (1, MAP_HEIGHT - 2), (MAP_WIDTH - 2, 1), (MAP_WIDTH - 2, MAP_HEIGHT - 2)]

/-- A base map whose every tile is `Block`: the generator can never find
an `Empty` candidate cell in it. -/
def ALL_BLOCK : BaseMap :=
  BaseMap.from_raw (List.replicate MAP_HEIGHT BLOCK_ROW) [(1, 1), (1, 1), (1, 1), (1, 1)]

/-- Two players drifting left with one pixel of speed, 8 px apart at tile
lane y = 16 px: the rear one's next hitbox overlaps the front one's old
position but not its moved position. -/
def cexPlayerFront : Player := ⟨⟨4096, 4096⟩, .Left, ⟨256, .Left⟩, 0, .P2⟩

def cexPlayerRear : Player := ⟨⟨6144, 4096⟩, .Left, ⟨256, .Left⟩, 0, .P3⟩

/-- A player parked at the pixel origin, which lies outside the map
extents (the playable window starts at 8 px). -/
def cexPlayerEdge : Player := ⟨⟨0, 0⟩, .Right, ⟨0, .Right⟩, 0, .P1⟩

/-- Two same-kind bullets travelling right: the rear one steps into the
front one's hitbox, the front one then steps out of range. -/
def cexBulletRear : Bullet := ⟨⟨0, 0⟩, .Right, .NoPlayer, .Bullet, false⟩

def cexBulletFront : Bullet := ⟨⟨1030, 0⟩, .Right, .NoPlayer, .Bullet, false⟩

/-! ## Generic list helpers -/

theorem list_getD_set_self {α : Type} (l : List α) (i : Nat) (a d : α) (h : i < l.length) :
    (l.set i a).getD i d = a := by
  induction l generalizing i with
  | nil => simp at h
  | cons hd tl ih =>
    cases i with
    | zero => rfl
    | succ n => simpa using ih n (by simpa using h)

theorem list_getD_set_ne {α : Type} (l : List α) (i j : Nat) (a d : α) (h : i ≠ j) :
    (l.set i a).getD j d = l.getD j d := by
  induction l generalizing i j with
  | nil => rfl
  | cons hd tl ih =>
    cases i with
    | zero =>
      cases j with
      | zero => exact absurd rfl h
      | succ m => rfl
    | succ n =>
      cases j with
      | zero => rfl
      | succ m => simpa using ih n m (by omega)

theorem list_getD_mem {α : Type} (l : List α) (i : Nat) (d : α) (h : i < l.length) :
    l.getD i d ∈ l := by
  induction l generalizing i with
  | nil => simp at h
  | cons hd tl ih =>
    cases i with
    | zero => simp
    | succ n => simpa using Or.inr (ih n (by simpa using h))

theorem list_getElem?_set_ne {α : Type} (l : List α) (i j : Nat) (a : α) (h : i ≠ j) :
    (l.set i a)[j]? = l[j]? := by
  induction l generalizing i j with
  | nil => rfl
  | cons hd tl ih =>
    cases i with
    | zero =>
      cases j with
      | zero => exact absurd rfl h
      | succ m => simp
    | succ n =>
      cases j with
      | zero => simp
      | succ m => simpa using ih n m (by omega)

theorem list_getElem?_set_self {α : Type} (l : List α) (i : Nat) (a : α) (h : i < l.length) :
    (l.set i a)[i]? = some a := by
  induction l generalizing i with
  | nil => simp at h
  | cons hd tl ih =>
    cases i with
    | zero => simp
    | succ n => simpa using ih n (by simpa using h)

theorem list_drop_set_of_lt {α : Type} (l : List α) (i m : Nat) (a : α) (h : i < m) :
    (l.set i a).drop m = l.drop m := by
  induction l generalizing i m with
  | nil => rfl
  | cons hd tl ih =>
    cases i with
    | zero =>
      cases m with
      | zero => omega
      | succ k => rfl
    | succ n =>
      cases m with
      | zero => omega
      | succ k => simpa using ih n k (by omega)

theorem list_take_ext {α : Type} (l1 l2 : List α) (m : Nat)
    (h : ∀ j, j < m → l1[j]? = l2[j]?) : l1.take m = l2.take m := by
  induction m generalizing l1 l2 with
  | zero => rfl
  | succ k ih =>
    cases l1 with
    | nil =>
      cases l2 with
      | nil => rfl
      | cons b bs => exact absurd (h 0 (by omega)) (by simp)
    | cons a as =>
      cases l2 with
      | nil => exact absurd (h 0 (by omega)) (by simp)
      | cons b bs =>
        have hab : a = b := by simpa using h 0 (by omega)
        have htl : as.take k = bs.take k := ih as bs fun j hj => by simpa using h (j + 1) (by omega)
        simp [hab, htl]

/-! ## Supporting lemmas for the packed-nibble grid -/

theorem maptile_to_u8_lt (t : MapTile) : t.to_u8 < 8 := by cases t <;> decide

/-- Decoding any raw byte whose low three bits spell a tile's discriminant
yields that tile. -/
theorem from_u8_of_and7 (r : Nat) (t : MapTile) (h : r &&& 7 = t.to_u8) :
    MapTile.from_u8 r = t := by
  unfold MapTile.from_u8
  rw [show r &&& 0x07 = r &&& 7 from rfl, h]
  cases t <;> rfl

theorem nibble_set_even_get_even (e t : Nat) (he : e < 256) (ht : t < 8) :
    (((t <<< 4) ||| (e &&& 0x0F)) >>> 4) &&& 7 = t := by
  revert t
  revert e
  decide

theorem nibble_set_odd_get_odd (e t : Nat) (he : e < 256) (ht : t < 8) :
    ((e &&& 0xF0) ||| t) &&& 7 = t := by
  revert t
  revert e
  decide

theorem nibble_set_even_get_odd (e t : Nat) (he : e < 256) (ht : t < 8) :
    ((t <<< 4) ||| (e &&& 0x0F)) &&& 7 = e &&& 7 := by
  revert t
  revert e
  decide

theorem nibble_set_odd_get_even (e t : Nat) (he : e < 256) (ht : t < 8) :
    (((e &&& 0xF0) ||| t) >>> 4) &&& 7 = (e >>> 4) &&& 7 := by
  revert t
  revert e
  decide

/-- Reading a cell with even x uses the high nibble of its byte. -/
theorem BaseMap.get_even (m : BaseMap) (x y : Nat) (h : x % 2 = 0) :
    m.get x y = MapTile.from_u8 (((m.data.getD y []).getD (x / 2) 0) >>> 4) := by
  unfold BaseMap.get
  rw [h]
  rfl

/-- Reading a cell with odd x uses the low nibble of its byte. -/
theorem BaseMap.get_odd (m : BaseMap) (x y : Nat) (h : x % 2 = 1) :
    m.get x y = MapTile.from_u8 ((m.data.getD y []).getD (x / 2) 0) := by
  unfold BaseMap.get
  rw [h]
  rfl

/-- Writing a cell with even x rewrites the high nibble of its byte. -/
theorem BaseMap.set_even (m : BaseMap) (x y : Nat) (t : MapTile) (h : x % 2 = 0) :
    m.set x y t = { m with data := m.data.set y ((m.data.getD y []).set (x / 2)
      ((t.to_u8 <<< 4) ||| (((m.data.getD y []).getD (x / 2) 0) &&& 0x0F))) } := by
  unfold BaseMap.set
  rw [h]
  rfl

/-- Writing a cell with odd x rewrites the low nibble of its byte. -/
theorem BaseMap.set_odd (m : BaseMap) (x y : Nat) (t : MapTile) (h : x % 2 = 1) :
    m.set x y t = { m with data := m.data.set y ((m.data.getD y []).set (x / 2)
      ((((m.data.getD y []).getD (x / 2) 0) &&& 0xF0) ||| t.to_u8)) } := by
  unfold BaseMap.set
  rw [h]
  rfl

/-- `MapTile.from_u8` depends only on the low three bits of its argument. -/
theorem from_u8_congr (a b : Nat) (h : a &&& 7 = b &&& 7) :
    MapTile.from_u8 a = MapTile.from_u8 b := by
  unfold MapTile.from_u8
  rw [show a &&& 0x07 = a &&& 7 from rfl, show b &&& 0x07 = b &&& 7 from rfl, h]

/-- Claim C9: for every tile value t and in-range coordinates (x, y) of a
well-formed packed grid, reading the cell after `set(x, y, t)` returns t,
and `set` leaves every other cell's stored value unchanged. -/
theorem c9_packing_roundtrip (m : BaseMap) (hWF : m.WF) (t : MapTile) (x y xq yq : Nat)
    (hx : x < MAP_WIDTH) (hy : y < MAP_HEIGHT) (hxq : xq < MAP_WIDTH) (hyq : yq < MAP_HEIGHT)
    (hne : (xq, yq) ≠ (x, y)) :
    (m.set x y t).get x y = t ∧ (m.set x y t).get xq yq = m.get xq yq := by
  obtain ⟨hlen, hrows⟩ := hWF
  have hx28 : x < 28 := hx
  have hxq28 : xq < 28 := hxq
  have hy18 : y < 18 := hy
  have hylt : y < m.data.length := by omega
  have hrowy := hrows _ (list_getD_mem m.data y [] hylt)
  have hrow14 : (m.data.getD y []).length = 14 := hrowy.1
  have hblt : x / 2 < (m.data.getD y []).length := by omega
  have hbyte : (m.data.getD y []).getD (x / 2) 0 < 256 :=
    hrowy.2 _ (list_getD_mem _ (x / 2) 0 hblt)
  have hmask := maptile_to_u8_lt t
  constructor
  · -- round trip at the written cell
    rcases Nat.mod_two_eq_zero_or_one x with hpar | hpar
    · rw [BaseMap.set_even m x y t hpar, BaseMap.get_even _ x y hpar]
      simp only []
      rw [list_getD_set_self _ _ _ _ hylt, list_getD_set_self _ _ _ _ hblt]
      exact from_u8_of_and7 _ _ (nibble_set_even_get_even _ _ hbyte hmask)
    · rw [BaseMap.set_odd m x y t hpar, BaseMap.get_odd _ x y hpar]
      simp only []
      rw [list_getD_set_self _ _ _ _ hylt, list_getD_set_self _ _ _ _ hblt]
      exact from_u8_of_and7 _ _ (nibble_set_odd_get_odd _ _ hbyte hmask)
  · -- all other cells unchanged
    by_cases hyy : yq = y
    · subst hyy
      by_cases hbb : xq / 2 = x / 2
      · -- same byte, so xq and x have different parity
        have hxx : xq ≠ x := fun hc => hne (by rw [hc])
        have hparne : xq % 2 ≠ x % 2 := by omega
        rcases Nat.mod_two_eq_zero_or_one x with hpar | hpar
        · -- wrote the high nibble; read the low nibble
          have hparq : xq % 2 = 1 := by omega
          rw [BaseMap.set_even m x yq t hpar, BaseMap.get_odd _ xq yq hparq,
              BaseMap.get_odd m xq yq hparq]
          simp only []
          rw [hbb, list_getD_set_self _ _ _ _ hylt, list_getD_set_self _ _ _ _ hblt]
          exact from_u8_congr _ _ (nibble_set_even_get_odd _ _ hbyte hmask)
        · -- wrote the low nibble; read the high nibble
          have hparq : xq % 2 = 0 := by omega
          rw [BaseMap.set_odd m x yq t hpar, BaseMap.get_even _ xq yq hparq,
              BaseMap.get_even m xq yq hparq]
          simp only []
          rw [hbb, list_getD_set_self _ _ _ _ hylt, list_getD_set_self _ _ _ _ hblt]
          exact from_u8_congr _ _ (by
            have h1 := nibble_set_odd_get_even _ t.to_u8 hbyte hmask
            exact h1)
      · -- same row, different byte
        unfold BaseMap.set BaseMap.get
        simp only []
        rw [list_getD_set_self _ _ _ _ hylt,
            list_getD_set_ne _ _ _ _ _ (fun hc => hbb hc.symm)]
    · -- different row
      unfold BaseMap.set BaseMap.get
      simp only []
      rw [list_getD_set_ne _ _ _ _ _ (fun hc => hyy hc.symm)]

/-- Witness for C9 at a concrete well-formed map and concrete cells. -/
theorem c9_packing_roundtrip_witness :
    (HONEYCOMB_BASE.set 5 5 MapTile.VertPipe).get 5 5 = MapTile.VertPipe ∧
    (HONEYCOMB_BASE.set 5 5 MapTile.VertPipe).get 6 5 = HONEYCOMB_BASE.get 6 5 :=
  c9_packing_roundtrip HONEYCOMB_BASE (by decide) MapTile.VertPipe 5 5 6 5
    (by decide) (by decide) (by decide) (by decide) (by decide)

/-! ## Supporting lemmas for the bullet update -/

theorem Bullet.moved_kind (b : Bullet) : b.moved.kind = b.kind := rfl

theorem Bullet.moved_tag (b : Bullet) : b.moved.tag = b.tag := rfl

theorem Bullet.moved_dir (b : Bullet) : b.moved.dir = b.dir := rfl

/-- Hitbox overlap ignores every field of a bullet except its position. -/
theorem bbCollides_dir (b q : Bullet) (d : Direction) :
    bbCollides { b with dir := d } q = bbCollides b q := rfl

/-- The player loop finds the first player the bullet overlaps. -/
theorem firstHit_append (b : Bullet) (ps1 : List Player) (p : Player) (ps2 : List Player)
    (hmiss : ∀ q ∈ ps1, bpCollides b q = false) (hhit : bpCollides b p = true) :
    firstHit b (ps1 ++ p :: ps2) = some p := by
  induction ps1 with
  | nil => simp [firstHit, hhit]
  | cons q qs ih =>
    have hq : bpCollides b q = false := hmiss q (by simp)
    simp only [List.cons_append, firstHit, hq, Bool.false_eq_true, if_false]
    exact ih fun r hr => hmiss r (by simp [hr])

/-- A bullet that overlaps none of the remaining bullets passes through
the loop unchanged. -/
theorem bulletLoop_nocollide (b : Bullet) (os : List Bullet)
    (h : ∀ q ∈ os, bbCollides b q = false) : bulletBulletLoop b os = (b, false) := by
  induction os with
  | nil => rfl
  | cons o rest ih =>
    have ho : bbCollides b o = false := h o (by simp)
    simp only [bulletBulletLoop, ho, Bool.not_false, if_true]
    exact ih fun q hq => h q (by simp [hq])

/-- Claim C7: a Bullet that hits a player yields PushChargePlayer exactly
when the owner tag matches the struck player's tag (never KillPlayer
then), KillPlayer otherwise; a Reflector that hits a player only marks
itself `should_die` and emits no event. -/
theorem c7_friendly_fire (map : BaseMap) (b : Bullet) (ps1 ps2 : List Player) (p : Player)
    (ob1 ob2 : List Bullet)
    (hmiss : ∀ q ∈ ps1, bpCollides b.moved q = false)
    (hhit : bpCollides b.moved p = true) :
    (Bullet.update map (ps1 ++ p :: ps2) ob1 ob2 b).1.should_die = true ∧
    (b.kind = BulletType.Reflector → (Bullet.update map (ps1 ++ p :: ps2) ob1 ob2 b).2 = none) ∧
    (b.kind = BulletType.Bullet → b.tag.matches_player p.tag = true →
      (Bullet.update map (ps1 ++ p :: ps2) ob1 ob2 b).2
          = some (BulletEvent.PushChargePlayer p.tag b.dir) ∧
      ∀ tg, (Bullet.update map (ps1 ++ p :: ps2) ob1 ob2 b).2 ≠ some (BulletEvent.KillPlayer tg)) ∧
    (b.kind = BulletType.Bullet → b.tag.matches_player p.tag = false →
      (Bullet.update map (ps1 ++ p :: ps2) ob1 ob2 b).2 = some (BulletEvent.KillPlayer p.tag)) := by
  have hfh := firstHit_append b.moved ps1 p ps2 hmiss hhit
  refine ⟨?_, ?_, ?_, ?_⟩
  · cases hk : b.kind <;>
      cases hmt : b.tag.matches_player p.tag <;>
        simp [Bullet.update, hfh, Bullet.moved_kind, Bullet.moved_tag, hk, hmt]
  · intro hk
    simp [Bullet.update, hfh, Bullet.moved_kind, hk]
  · intro hk hmt
    constructor
    · simp [Bullet.update, hfh, Bullet.moved_kind, Bullet.moved_tag, Bullet.moved_dir, hk, hmt]
    · intro tg
      simp [Bullet.update, hfh, Bullet.moved_kind, Bullet.moved_tag, hk, hmt]
  · intro hk hmt
    simp [Bullet.update, hfh, Bullet.moved_kind, Bullet.moved_tag, hk, hmt]

/-- A bullet owned by player 1 striking player 1: the friendly hit pushes
and never kills (witness instantiating C7's theorem). -/
def wBullet : Bullet := ⟨⟨0, 0⟩, .Right, .Player1, .Bullet, false⟩

def wPlayer : Player := ⟨⟨8, 0⟩, .Right, ⟨0, .Right⟩, 0, .P1⟩

theorem c7_friendly_fire_witness :
    (Bullet.update EMPTY_MAP ([] ++ wPlayer :: []) [] [] wBullet).1.should_die = true ∧
    (wBullet.kind = BulletType.Reflector →
      (Bullet.update EMPTY_MAP ([] ++ wPlayer :: []) [] [] wBullet).2 = none) ∧
    (wBullet.kind = BulletType.Bullet → wBullet.tag.matches_player wPlayer.tag = true →
      (Bullet.update EMPTY_MAP ([] ++ wPlayer :: []) [] [] wBullet).2
          = some (BulletEvent.PushChargePlayer wPlayer.tag wBullet.dir) ∧
      ∀ tg, (Bullet.update EMPTY_MAP ([] ++ wPlayer :: []) [] [] wBullet).2
          ≠ some (BulletEvent.KillPlayer tg)) ∧
    (wBullet.kind = BulletType.Bullet → wBullet.tag.matches_player wPlayer.tag = false →
      (Bullet.update EMPTY_MAP ([] ++ wPlayer :: []) [] [] wBullet).2
          = some (BulletEvent.KillPlayer wPlayer.tag)) :=
  c7_friendly_fire EMPTY_MAP wBullet [] [] wPlayer [] [] (by simp) (by decide)

/-- Claim C8 (amended): within one bullet's update, a same-kind collision
marks that bullet itself `should_die` and ends its collision scan (the
other bullet is only marked if its own update also sees the collision);
a Bullet meeting an opposing-kind Reflector flips its travel direction
and neither side's `should_die` is set by that collision alone. -/
theorem c8_collision_marking (b o : Bullet) (os1 os2 : List Bullet)
    (h1 : ∀ q ∈ os1, bbCollides b q = false)
    (hc : bbCollides b o = true) :
    (b.kind = o.kind →
      bulletBulletLoop b (os1 ++ o :: os2) = ({ b with should_die := true }, true)) ∧
    (b.kind = BulletType.Bullet → o.kind = BulletType.Reflector →
      (∀ q ∈ os2, bbCollides b q = false) →
      bulletBulletLoop b (os1 ++ o :: os2) = ({ b with dir := b.dir.flipped }, false)) ∧
    (b.kind = BulletType.Reflector → o.kind = BulletType.Bullet →
      (∀ q ∈ os2, bbCollides b q = false) →
      bulletBulletLoop b (os1 ++ o :: os2) = (b, false)) := by
  induction os1 with
  | nil =>
    refine ⟨?_, ?_, ?_⟩
    · intro hk
      simp [bulletBulletLoop, hc, hk]
    · intro hk ho h2
      simp only [List.nil_append, bulletBulletLoop, hc, Bool.not_true, Bool.false_eq_true,
        if_false, hk, ho]
      norm_num
      exact bulletLoop_nocollide _ os2 fun q hq => h2 q hq
    · intro hk ho h2
      simp only [List.nil_append, bulletBulletLoop, hc, Bool.not_true, Bool.false_eq_true,
        if_false, hk, ho]
      norm_num
      exact bulletLoop_nocollide _ os2 h2
  | cons q qs ih =>
    have hq : bbCollides b q = false := h1 q (by simp)
    have ih2 := ih fun r hr => h1 r (by simp [hr])
    refine ⟨?_, ?_, ?_⟩
    · intro hk
      simp only [List.cons_append, bulletBulletLoop, hq, Bool.not_false, if_true]
      exact ih2.1 hk
    · intro hk ho h2
      simp only [List.cons_append, bulletBulletLoop, hq, Bool.not_false, if_true]
      exact ih2.2.1 hk ho h2
    · intro hk ho h2
      simp only [List.cons_append, bulletBulletLoop, hq, Bool.not_false, if_true]
      exact ih2.2.2 hk ho h2

/-- A Bullet meeting an overlapping Reflector (witness instantiating C8's
amended theorem). -/
def wReflector : Bullet := ⟨⟨100, 0⟩, .Left, .NoPlayer, .Reflector, false⟩

theorem c8_collision_marking_witness :
    (wBullet.kind = wReflector.kind →
      bulletBulletLoop wBullet ([] ++ wReflector :: [])
          = ({ wBullet with should_die := true }, true)) ∧
    (wBullet.kind = BulletType.Bullet → wReflector.kind = BulletType.Reflector →
      (∀ q ∈ ([] : List Bullet), bbCollides wBullet q = false) →
      bulletBulletLoop wBullet ([] ++ wReflector :: [])
          = ({ wBullet with dir := wBullet.dir.flipped }, false)) ∧
    (wBullet.kind = BulletType.Reflector → wReflector.kind = BulletType.Bullet →
      (∀ q ∈ ([] : List Bullet), bbCollides wBullet q = false) →
      bulletBulletLoop wBullet ([] ++ wReflector :: []) = (wBullet, false)) :=
  c8_collision_marking wBullet wReflector [] [] (by simp) (by decide)

/-- Counterexample to C8 as stated: two identical-kind bullets collide
during the tick (the rear one's update sees the overlap), yet only the
rear bullet ends the tick with `should_die`; the front one's own update
runs after both have moved and no longer sees a collision, so the marking
is not mutual. -/
theorem c8_counterexample :
    cexBulletRear.kind = cexBulletFront.kind ∧
    bbCollides cexBulletRear.moved cexBulletFront = true ∧
    (update_logic EMPTY_MAP PlayerTag.P1 ControlsRepr.mk_default [] [cexBulletRear, cexBulletFront]).map
        (fun t => t.bullets.map Bullet.should_die) = some [true, false] := by
  decide

/-! ## Supporting lemmas for the PRNG and the generation loop -/

/-- A bounded draw with constant u8-sized bounds always succeeds and
advances the state. -/
theorem usize_const_small (r : Rng) (min max : Nat) (hminmax : min ≤ max) (hsmall : max < 256) :
    r.usize_const min max
      = some (⟨rngStepFn r.cur_state⟩, min + rngStepFn r.cur_state % (max - min + 1)) := by
  unfold Rng.usize_const Rng.u64_const
  rw [if_neg (by omega), if_neg (by unfold U64MOD; omega)]

theorem allblock_get (x y : Nat) (hx : x < MAP_WIDTH) (hy : y < MAP_HEIGHT) :
    ALL_BLOCK.get x y = MapTile.Block := by
  have h : ∀ a, a < MAP_WIDTH → ∀ b, b < MAP_HEIGHT → ALL_BLOCK.get a b = MapTile.Block := by
    decide
  exact h x hx y hy

/-- On a base layout with no `Empty` interior cell the placement loop
discards every candidate: whatever the iteration budget, it is still
running when the budget runs out. -/
theorem genLoop_allblock (fuel : Nat) : ∀ (rng : Rng) (k : Nat), k ≠ 0 →
    genLoop fuel ALL_BLOCK rng k = GenRes.fuelOut := by
  induction fuel with
  | zero =>
    intro rng k hk
    unfold genLoop
    rw [if_neg (by simpa using hk)]
  | succ n ih =>
    intro rng k hk
    have hx : 1 + rngStepFn rng.cur_state % (MAP_WIDTH - 2 - 1 + 1) < MAP_WIDTH := by
      have := Nat.mod_lt (rngStepFn rng.cur_state) (show 0 < MAP_WIDTH - 2 - 1 + 1 by decide)
      unfold MAP_WIDTH at *
      omega
    have hy : 1 + rngStepFn (rngStepFn rng.cur_state) % (MAP_HEIGHT - 2 - 1 + 1) < MAP_HEIGHT := by
      have := Nat.mod_lt (rngStepFn (rngStepFn rng.cur_state))
        (show 0 < MAP_HEIGHT - 2 - 1 + 1 by decide)
      unfold MAP_HEIGHT at *
      omega
    unfold genLoop
    rw [if_neg (by simpa using hk)]
    rw [usize_const_small rng 1 (MAP_WIDTH - 2) (by decide) (by decide)]
    simp only []
    rw [usize_const_small ⟨rngStepFn rng.cur_state⟩ 1 (MAP_HEIGHT - 2) (by decide) (by decide)]
    simp only [allblock_get _ _ hx hy]
    norm_num
    exact ih _ k hk


/-- The mirror-count draw `u8_const(1, 1)` always yields exactly one
mirror, so `generate` on the all-Block base spins forever. -/
theorem generate_allblock (seed fuel : Nat) :
    generate seed ALL_BLOCK 1 1 fuel = GenRes.fuelOut := by
  have h8 : (Rng.with_seed seed).u8_const 1 1
      = some (⟨rngStepFn (Rng.with_seed seed).cur_state⟩, 1) := by
    unfold Rng.u8_const Rng.u64_const
    rw [if_neg (by omega), if_neg (by unfold U64MOD; omega)]
    simp [Nat.mod_one]
  unfold generate
  rw [h8]
  exact genLoop_allblock fuel _ 1 (by omega)

/-- Claim C6 (amended): the placement loop imposes no retry bound — on a
base layout with no eligible `Empty` interior cell and a positive mirror
count it never terminates: for every iteration budget it is still
running, and it never fails loudly. -/
theorem c6_no_iteration_bound :
    (∀ (fuel : Nat) (rng : Rng) (k : Nat), k ≠ 0 →
      genLoop fuel ALL_BLOCK rng k = GenRes.fuelOut) ∧
    (∀ seed fuel : Nat, generate seed ALL_BLOCK 1 1 fuel = GenRes.fuelOut) :=
  ⟨genLoop_allblock, generate_allblock⟩

/-- Witness for C6's amended theorem at a concrete budget and seed. -/
theorem c6_no_iteration_bound_witness :
    genLoop 5 ALL_BLOCK ⟨0⟩ 1 = GenRes.fuelOut ∧ generate 0 ALL_BLOCK 1 1 7 = GenRes.fuelOut :=
  ⟨c6_no_iteration_bound.1 5 ⟨0⟩ 1 (by decide), c6_no_iteration_bound.2 0 7⟩

/-- Counterexample to C6 as stated: no iteration budget ever makes the
generator terminate (or fail loudly) on the all-Block base with one
mirror requested — the loop has no internal bound. -/
theorem c6_counterexample : ¬∃ n : Nat, generate 0 ALL_BLOCK 1 1 n ≠ GenRes.fuelOut := by
  rintro ⟨n, hn⟩
  exact hn (generate_allblock 0 n)

/-- Claim C10 (amended): `u64_const` with min ≤ max is total and returns
the advanced state with a draw in [min, max] — except at
(0, 2^64 - 1), where `max - min + 1` overflows u64 and the call panics;
with min > max the subtraction underflows and the call panics; the
u8/usize wrappers delegate to it, and `generate` with
min_mirrors > max_mirrors panics instead of producing a map. -/
theorem c10_rng_draw_total_in_range :
    (∀ (r : Rng) (min max : Nat), min ≤ max → max < U64MOD → ¬(min = 0 ∧ max = U64MOD - 1) →
      ∃ v, r.u64_const min max = some (⟨rngStepFn r.cur_state⟩, v) ∧ min ≤ v ∧ v ≤ max) ∧
    (∀ (r : Rng) (min max : Nat), max < min → r.u64_const min max = none) ∧
    (∀ (r : Rng) (min max : Nat),
      r.u8_const min max = (r.u64_const min max).map (fun p => (p.1, p.2 % 256)) ∧
      r.usize_const min max = r.u64_const min max) ∧
    (∀ (seed : Nat) (base : BaseMap) (fuel min max : Nat), max < min →
      generate seed base min max fuel = GenRes.panic) := by
  refine ⟨?_, ?_, fun r min max => ⟨rfl, rfl⟩, ?_⟩
  · intro r min max hle hlt hne
    refine ⟨min + rngStepFn r.cur_state % (max - min + 1), ?_, ?_, ?_⟩
    · unfold Rng.u64_const
      unfold U64MOD at hlt hne ⊢
      rw [if_neg (by omega), if_neg (by omega)]
    · omega
    · have hpos : 0 < max - min + 1 := by omega
      have := Nat.mod_lt (rngStepFn r.cur_state) hpos
      omega
  · intro r min max h
    unfold Rng.u64_const
    rw [if_pos h]
  · intro seed base fuel min max h
    have hu : (Rng.with_seed seed).u8_const min max = none := by
      unfold Rng.u8_const Rng.u64_const
      rw [if_pos h]
      rfl
    unfold generate
    rw [hu]

/-- Witness for C10's amended theorem at concrete bounds (3 ≤ 7, 7 > 3). -/
theorem c10_rng_draw_total_in_range_witness :
    (∃ v, (Rng.with_seed 1).u64_const 3 7
        = some (⟨rngStepFn (Rng.with_seed 1).cur_state⟩, v) ∧ 3 ≤ v ∧ v ≤ 7) ∧
    (Rng.with_seed 1).u64_const 7 3 = none ∧
    generate 1 HONEYCOMB_BASE 7 3 5 = GenRes.panic :=
  ⟨c10_rng_draw_total_in_range.1 (Rng.with_seed 1) 3 7 (by decide) (by decide) (by decide),
   c10_rng_draw_total_in_range.2.1 (Rng.with_seed 1) 7 3 (by decide),
   c10_rng_draw_total_in_range.2.2.2 1 HONEYCOMB_BASE 5 7 3 (by decide)⟩

/-- Counterexample to C10 as stated: at min = 0, max = 2^64 - 1 the
bounds satisfy min ≤ max, yet `max - min + 1` overflows u64 and the call
panics rather than returning a draw. -/
theorem c10_counterexample :
    (0 : Nat) ≤ U64MOD - 1 ∧ (Rng.with_seed 5).u64_const 0 (U64MOD - 1) = none := by
  constructor
  · exact Nat.zero_le _
  · unfold Rng.u64_const
    rw [if_neg (by omega), if_pos (by omega)]

/-- Claim C1 (amended): the generator's classification of the four
passability flags — with the two diagonal-pair mappings swapped relative
to the claim as stated: flags exactly {up,left} or {down,right} place an
UpMirror; exactly {up,right} or {down,left} place a DownMirror; all four
or any three true place a mirror chosen by one fair coin draw; no flag,
exactly one flag, or only an opposite pair discards the candidate, and a
discarded candidate leaves the remaining mirror count (and the map)
unchanged. -/
theorem c1_mirror_classification :
    (∀ rng : Rng,
      classify true false true false rng = some (MapTile.UpMirror, rng) ∧
      classify false true false true rng = some (MapTile.UpMirror, rng) ∧
      classify true false false true rng = some (MapTile.DownMirror, rng) ∧
      classify false true true false rng = some (MapTile.DownMirror, rng) ∧
      classify true true true true rng
        = some (if rng.bool_const.2 then MapTile.UpMirror else MapTile.DownMirror,
            rng.bool_const.1) ∧
      classify true true true false rng
        = some (if rng.bool_const.2 then MapTile.UpMirror else MapTile.DownMirror,
            rng.bool_const.1) ∧
      classify true true false true rng
        = some (if rng.bool_const.2 then MapTile.UpMirror else MapTile.DownMirror,
            rng.bool_const.1) ∧
      classify true false true true rng
        = some (if rng.bool_const.2 then MapTile.UpMirror else MapTile.DownMirror,
            rng.bool_const.1) ∧
      classify false true true true rng
        = some (if rng.bool_const.2 then MapTile.UpMirror else MapTile.DownMirror,
            rng.bool_const.1) ∧
      classify false false false false rng = none ∧
      classify false false false true rng = none ∧
      classify false false true false rng = none ∧
      classify false true false false rng = none ∧
      classify true false false false rng = none ∧
      classify true true false false rng = none ∧
      classify false false true true rng = none) ∧
    (∀ (fuel : Nat) (m : BaseMap) (rng r1 r2 : Rng) (k x y : Nat), k ≠ 0 →
      rng.usize_const 1 (MAP_WIDTH - 2) = some (r1, x) →
      r1.usize_const 1 (MAP_HEIGHT - 2) = some (r2, y) →
      m.get x y = MapTile.Empty →
      classify (genFlags m x y).1 (genFlags m x y).2.1 (genFlags m x y).2.2.1
        (genFlags m x y).2.2.2 r2 = none →
      genLoop (fuel + 1) m rng k = genLoop fuel m r2 k) := by
  constructor
  · intro rng
    exact ⟨rfl, rfl, rfl, rfl, rfl, rfl, rfl, rfl, rfl, rfl, rfl, rfl, rfl, rfl, rfl, rfl⟩
  · intro fuel m rng r1 r2 k x y hk h1 h2 hget hcls
    conv_lhs => rw [genLoop]
    rw [if_neg (by simpa using hk)]
    rw [h1]
    simp only []
    rw [h2]
    simp only [hget]
    norm_num
    simp only [hcls]

/-- Witness instantiating C1's discard conjunct: seed 0 draws the cell
(1, 1) of the honeycomb base, whose flags classify to a discard, and the
loop recurses with the same mirror count. -/
theorem c1_mirror_classification_witness :
    genLoop 1 HONEYCOMB_BASE ⟨0⟩ 1 = genLoop 0 HONEYCOMB_BASE ⟨0⟩ 1 :=
  c1_mirror_classification.2 0 HONEYCOMB_BASE ⟨0⟩ ⟨0⟩ ⟨0⟩ 1 1 1 (by decide) (by decide)
    (by decide) (by decide) (by decide)

/-- Counterexample to C1 as stated: flags exactly {up, right} — the tuple
(u, d, l, r) = (true, false, false, true) — place a DownMirror, not the
UpMirror the claim names. -/
theorem c1_counterexample :
    classify true false false true (Rng.with_seed 0)
        = some (MapTile.DownMirror, Rng.with_seed 0) ∧
    MapTile.DownMirror ≠ MapTile.UpMirror := by
  exact ⟨rfl, by decide⟩

/-- Claim C2: at the honeycomb candidate cell (26, 1) the source computes
the right-passability flag from the tile at (25, 1) — the left neighbor —
so the flags disagree with the spec's own-side rule, which reads the
Block at (27, 1): the code yields (false, true, true, true) where the
claim requires (false, true, true, false). -/
theorem c2_right_flag_reads_left_neighbor :
    genFlags HONEYCOMB_BASE 26 1 = (false, true, true, true) ∧
    genFlagsSpec HONEYCOMB_BASE 26 1 = (false, true, true, false) ∧
    HONEYCOMB_BASE.get 25 1 = MapTile.Empty ∧
    HONEYCOMB_BASE.get 27 1 = MapTile.Block ∧
    genFlags HONEYCOMB_BASE 26 1 ≠ genFlagsSpec HONEYCOMB_BASE 26 1 := by
  decide

/-- Claim C3: the spawn cells are all `Empty` at construction, yet the
generator does not protect them — with seed 134 and mirror count fixed to
one, `generate` writes a DownMirror onto the spawn cell (26, 16). -/
theorem c3_spawn_overwritten :
    verify_spawns HONEYCOMB_BASE = true ∧
    HONEYCOMB_BASE.spawns.contains (26, 16) = true ∧
    (generate 134 HONEYCOMB_BASE 1 1 10).tileAt 26 16 = some MapTile.DownMirror := by
  decide

/-! ## Map extents (claim C4) -/

/-- A pixel position outside the playable window of the map: the tile
indices run over x ∈ [8 px, 232 px) and y ∈ [8 px, 152 px), i.e.
[2048, 59392) × [2048, 38912) in fixed-point units. -/
def outOfExtents (pos : Vec2) : Prop :=
  pos.x < 2048 ∨ (59392 : Int) ≤ pos.x ∨ pos.y < 2048 ∨ (38912 : Int) ≤ pos.y

instance (pos : Vec2) : Decidable (outOfExtents pos) := by
  unfold outOfExtents
  infer_instance

theorem raw_low_iff (v : Int) :
    fxdiv v TILE_SIZE - (BUFFER_TILES : Int) * fxOne < 0 ↔ v < 2048 := by
  unfold fxdiv TILE_SIZE BUFFER_TILES fxOne
  split <;> omega

theorem idx_high_x_iff (v : Int) (hv : 0 ≤ v) :
    MAP_WIDTH ≤ (fxdiv (fxdiv v TILE_SIZE - (BUFFER_TILES : Int) * fxOne) 256).toNat ↔
      59392 ≤ v := by
  unfold fxdiv TILE_SIZE BUFFER_TILES fxOne MAP_WIDTH
  split_ifs <;> omega

theorem idx_high_y_iff (v : Int) (hv : 0 ≤ v) :
    MAP_HEIGHT ≤ (fxdiv (fxdiv v TILE_SIZE - (BUFFER_TILES : Int) * fxOne) 256).toNat ↔
      38912 ≤ v := by
  unfold fxdiv TILE_SIZE BUFFER_TILES fxOne MAP_HEIGHT
  split_ifs <;> omega

/-- `pixel_to_index` yields no index exactly on the out-of-extents
positions. -/
theorem pixel_to_index_none_iff (a b : Int) :
    BaseMap.pixel_to_index ⟨a, b⟩ = none ↔ outOfExtents ⟨a, b⟩ := by
  have hmain : BaseMap.pixel_to_index ⟨a, b⟩ = none ↔
      ((fxdiv a TILE_SIZE - (BUFFER_TILES : Int) * fxOne < 0 ∨
        fxdiv b TILE_SIZE - (BUFFER_TILES : Int) * fxOne < 0) ∨
       (MAP_WIDTH ≤ (fxdiv (fxdiv a TILE_SIZE - (BUFFER_TILES : Int) * fxOne) 256).toNat ∨
        MAP_HEIGHT ≤ (fxdiv (fxdiv b TILE_SIZE - (BUFFER_TILES : Int) * fxOne) 256).toNat)) := by
    unfold BaseMap.pixel_to_index
    dsimp only
    split_ifs with h1 h2
    · exact iff_of_true rfl (Or.inl h1)
    · exact iff_of_true rfl (Or.inr h2)
    · exact iff_of_false (by simp) (fun h => h.elim h1 h2)
  rw [hmain]
  unfold outOfExtents
  rw [raw_low_iff a, raw_low_iff b]
  by_cases ha : a < 2048
  · simp [ha]
  · by_cases hb : b < 2048
    · simp [hb]
    · have ha0 : 0 ≤ a := by omega
      have hb0 : 0 ≤ b := by omega
      rw [idx_high_x_iff a ha0, idx_high_y_iff b hb0]
      simp [ha, hb]

/-- Claim C4 (amended): out-of-extents positions resolve to sentinels —
`pixel_to_index` returns no index and `tile_at_pixel` reads `Empty` — so
tile lookups never fail; but `Player::update` unwraps
`pixel_to_index(next_pos_raw)` and therefore panics (models as `none`)
whenever the candidate next position lies outside the map extents. -/
theorem c4_out_of_bounds_sentinel :
    (∀ (m : BaseMap) (pos : Vec2), outOfExtents pos →
      BaseMap.pixel_to_index pos = none ∧ m.tile_at_pixel pos = MapTile.Empty) ∧
    (∀ (map : BaseMap) (ps1 ps2 : List Player) (bs : List Bullet) (c : ControlsRepr) (p : Player),
      outOfExtents (p.candidateRaw c) → Player.update map ps1 ps2 bs c p = none) := by
  constructor
  · intro m pos hout
    have hnone : BaseMap.pixel_to_index pos = none := by
      rcases pos with ⟨a, b⟩
      exact (pixel_to_index_none_iff a b).mpr hout
    refine ⟨hnone, ?_⟩
    unfold BaseMap.tile_at_pixel
    rw [hnone]
  · intro map ps1 ps2 bs c p hout
    have hnone : BaseMap.pixel_to_index (p.candidateRaw c) = none := by
      rcases hc : p.candidateRaw c with ⟨a, b⟩
      rw [hc] at hout
      exact (pixel_to_index_none_iff a b).mpr hout
    unfold Player.update
    dsimp only
    rw [show BaseMap.pixel_to_index ((p.step_vel c).pos + (p.step_vel c).vel.toVec) = none
      from hnone]

/-- Witness for C4's amended theorem: the origin is out of extents and
resolves to the sentinels; a player whose candidate position is the
origin panics in `Player::update`. -/
theorem c4_out_of_bounds_sentinel_witness :
    (BaseMap.pixel_to_index ⟨0, 0⟩ = none ∧ EMPTY_MAP.tile_at_pixel ⟨0, 0⟩ = MapTile.Empty) ∧
    Player.update EMPTY_MAP [] [] [] ControlsRepr.mk_default cexPlayerEdge = none :=
  ⟨c4_out_of_bounds_sentinel.1 EMPTY_MAP ⟨0, 0⟩ (by decide),
   c4_out_of_bounds_sentinel.2 EMPTY_MAP [] [] [] ControlsRepr.mk_default cexPlayerEdge
     (by decide)⟩

/-- Counterexample to C4 as stated: player movement does fail on an
out-of-map query — a player sitting at the pixel origin (outside the map)
makes `Player::update` panic on its `unwrap` (modelled as `none`). -/
theorem c4_counterexample :
    outOfExtents (cexPlayerEdge.candidateRaw ControlsRepr.mk_default) ∧
    Player.update EMPTY_MAP [] [] [] ControlsRepr.mk_default cexPlayerEdge = none :=
  ⟨by decide, by decide⟩

/-! ## The player phase reads already-updated earlier players (claim C5) -/

/-- Invariant of the in-place player loop over indices `s, s+1, ...`:
indices below `s` are untouched, and each processed index `j` holds the
update of the original player computed against the final list's own
prefix (the post-update states of earlier players) and the original
list's suffix (the previous tick's snapshot of later players). -/
theorem playersPhaseGo_spec (map : BaseMap) (bullets : List Bullet) (lp : PlayerTag)
    (ctrl : ControlsRepr) :
    ∀ (n s : Nat) (ps res : List Player), s + n = ps.length →
    playersPhaseGo map bullets lp ctrl (idxs s n) ps = some res →
    res.length = ps.length ∧
    (∀ j, j < s → res[j]? = ps[j]?) ∧
    (∀ j, s ≤ j → j < ps.length → ∃ cur p2, ps[j]? = some cur ∧
      Player.update map (res.take j) (ps.drop (j + 1)) bullets (ctrlFor lp ctrl cur) cur
        = some p2 ∧ res[j]? = some p2) := by
  intro n
  induction n with
  | zero =>
    intro s ps res hlen hrun
    have hres : res = ps := by
      have : some ps = some res := by simpa [playersPhaseGo, idxs] using hrun
      exact (Option.some.injEq _ _ ▸ this).symm
    subst hres
    exact ⟨rfl, fun j hj => rfl, fun j hs hj => absurd hj (by omega)⟩
  | succ k ih =>
    intro s ps res hlen hrun
    have hslt : s < ps.length := by omega
    have hsplit : splitMutAt ps s = some (ps.take s, ps.get ⟨s, hslt⟩, ps.drop (s + 1)) := by
      unfold splitMutAt
      rw [dif_pos hslt]
    rw [show idxs s (k + 1) = s :: idxs (s + 1) k from rfl] at hrun
    rw [playersPhaseGo, hsplit] at hrun
    dsimp only at hrun
    cases hupd : Player.update map (ps.take s) (ps.drop (s + 1)) bullets
        (ctrlFor lp ctrl (ps.get ⟨s, hslt⟩)) (ps.get ⟨s, hslt⟩) with
    | none =>
      rw [hupd] at hrun
      exact absurd hrun (by simp)
    | some p2 =>
      rw [hupd] at hrun
      have hlen2 : (s + 1) + k = (ps.set s p2).length := by
        rw [List.length_set]
        omega
      obtain ⟨ihlen, ihlow, ihwin⟩ := ih (s + 1) (ps.set s p2) res hlen2 hrun
      refine ⟨by rw [ihlen, List.length_set], ?_, ?_⟩
      · intro j hj
        rw [ihlow j (by omega), list_getElem?_set_ne _ s j p2 (by omega)]
      · intro j hs hj
        by_cases hjs : j = s
        · subst hjs
          refine ⟨ps.get ⟨j, hslt⟩, p2, ?_, ?_, ?_⟩
          · rw [List.getElem?_eq_getElem hslt]
            rfl
          · have htake : res.take j = ps.take j := by
              apply list_take_ext
              intro i hi
              rw [ihlow i (by omega), list_getElem?_set_ne _ j i p2 (by omega)]
            rw [htake]
            exact hupd
          · rw [ihlow j (by omega)]
            exact list_getElem?_set_self ps j p2 hslt
        · have hs1 : s + 1 ≤ j := by omega
          have hj2 : j < (ps.set s p2).length := by
            rw [List.length_set]
            omega
          obtain ⟨cur, q2, hcur, hupd2, hres2⟩ := ihwin j hs1 hj2
          refine ⟨cur, q2, ?_, ?_, hres2⟩
          · rw [← hcur, list_getElem?_set_ne _ s j p2 (by omega)]
          · rw [list_drop_set_of_lt ps s (j + 1) p2 (by omega)] at hupd2
            exact hupd2

/-- Claim C5 (amended): in one tick's player phase, player j's update
reads the post-update states of players with smaller index (the final
list's own prefix) and the previous tick's snapshot only of players with
larger index (the original list's suffix) — updates are sequential and
in place, not all against the previous snapshot. -/
theorem c5_sequential_reads (map : BaseMap) (bullets : List Bullet) (lp : PlayerTag)
    (ctrl : ControlsRepr) (ps res : List Player)
    (hrun : playersPhase map bullets lp ctrl ps = some res) :
    res.length = ps.length ∧
    ∀ j, j < ps.length → ∃ cur p2, ps[j]? = some cur ∧
      Player.update map (res.take j) (ps.drop (j + 1)) bullets (ctrlFor lp ctrl cur) cur
        = some p2 ∧ res[j]? = some p2 := by
  have h := playersPhaseGo_spec map bullets lp ctrl ps.length 0 ps res (by omega) hrun
  exact ⟨h.1, fun j hj => h.2.2 j (by omega) hj⟩

/-- The concrete result of the sequential player phase on the two
drifting players. -/
def cexPlayersRes : List Player :=
  [⟨⟨3925, 4096⟩, .Left, ⟨171, .Left⟩, 0, .P2⟩, ⟨⟨5973, 4096⟩, .Left, ⟨171, .Left⟩, 0, .P3⟩]

/-- Witness for C5's amended theorem on the concrete two-player state. -/
theorem c5_sequential_reads_witness :
    cexPlayersRes.length = ([cexPlayerFront, cexPlayerRear] : List Player).length ∧
    ∀ j, j < ([cexPlayerFront, cexPlayerRear] : List Player).length →
      ∃ cur p2, ([cexPlayerFront, cexPlayerRear] : List Player)[j]? = some cur ∧
        Player.update EMPTY_MAP (cexPlayersRes.take j)
            (([cexPlayerFront, cexPlayerRear] : List Player).drop (j + 1)) []
            (ctrlFor PlayerTag.P1 ControlsRepr.mk_default cur) cur
          = some p2 ∧ cexPlayersRes[j]? = some p2 :=
  c5_sequential_reads EMPTY_MAP [] PlayerTag.P1 ControlsRepr.mk_default
    [cexPlayerFront, cexPlayerRear] cexPlayersRes (by decide)

/-- Counterexample to C5 as stated: on two players drifting left in lock
step, the rear player's sequential update sees the front player's
post-update position and moves, while against the previous tick's
snapshot the same move is blocked — the two phase semantics produce
different states, so reads are not only against the snapshot. -/
theorem c5_counterexample :
    (playersPhase EMPTY_MAP [] PlayerTag.P1 ControlsRepr.mk_default
        [cexPlayerFront, cexPlayerRear]).map (fun l => l.map Player.pos)
      = some [⟨3925, 4096⟩, ⟨5973, 4096⟩] ∧
    (playersPhaseSnapshot EMPTY_MAP [] PlayerTag.P1 ControlsRepr.mk_default
        [cexPlayerFront, cexPlayerRear]).map (fun l => l.map Player.pos)
      = some [⟨3925, 4096⟩, ⟨6144, 4096⟩] ∧
    playersPhase EMPTY_MAP [] PlayerTag.P1 ControlsRepr.mk_default
        [cexPlayerFront, cexPlayerRear]
      ≠ playersPhaseSnapshot EMPTY_MAP [] PlayerTag.P1 ControlsRepr.mk_default
        [cexPlayerFront, cexPlayerRear] := by
  refine ⟨by decide, by decide, by decide⟩
